import Mathlib

/-!
Verification of the jx-admin server: a shallow embedding of the user-admin
storage layer (`server/storage.ts`, shared schema) and its HTTP route handlers
(`server/routes.ts`), with theorems settling the specification claims about
pagination, settings merging, expiration normalization, validation, analytics
aggregation, and table selection.

Modelling conventions:
- TypeScript strings are `List Char` (`Str`); timestamps are `Nat` seconds
  since the epoch, with one calendar day = 86400 seconds (the process clock is
  assumed to run in UTC, matching the deployment environment).
- The hosted database is modelled honestly: a table is a `List User`, a
  `select ... count: exact` returns the number of matching rows, and query
  builder constraints become row predicates.
- JavaScript `Map` objects are association lists preserving insertion order;
  `Map.set` overwrites in place for an existing key and appends otherwise.
- Fallible paths (thrown exceptions, database errors) return `Except`.
-/

namespace JxAdmin

/-- TypeScript strings are modelled as lists of characters. -/
abbrev Str := List Char

/-- Whether `p` occurs at the start of the second list. -/
def startsWithSeq : Str → Str → Bool
  | [], _ => true
  | _ :: _, [] => false
  | a :: as, b :: bs => a == b && startsWithSeq as bs

/-- Whether `p` occurs contiguously anywhere in the second list. -/
def containsSeq (p : Str) : Str → Bool
  | [] => p.isEmpty
  | b :: bs => startsWithSeq p (b :: bs) || containsSeq p bs

/-- Case-insensitive containment: models the PostgREST `ilike` constraint with
a pattern of the shape `%needle%`, as built in `getUsers`. -/
def containsCI (needle hay : Str) : Bool :=
  containsSeq (needle.map Char.toLower) (hay.map Char.toLower)

/-- Lexicographic comparison on strings (text column ordering). -/
def lexLe : Str → Str → Bool
  | [], _ => true
  | _ :: _, [] => false
  | a :: as, b :: bs => if a = b then lexLe as bs else decide (a < b)

/-- Ordering for nullable timestamp-string columns: default Postgres ascending
order places nulls last. -/
def optStrLe : Option Str → Option Str → Bool
  | some a, some b => lexLe a b
  | some _, none => true
  | none, some _ => false
  | none, none => true

/-- One calendar day in seconds. -/
def SECONDS_PER_DAY : Nat := 86400

/-- The calendar day of a timestamp, as used by
`new Date(t).toISOString().split(.T.)[0]`: ISO date strings compare exactly
like these day indices, so a day index stands in for the date string. -/
def dayOf (t : Nat) : Nat := t / SECONDS_PER_DAY

/-- A row of the `users2` table (shared schema `users`).  `created_at` is a
timestamp; the nullable timestamp columns are stored as their rendered
timestamp strings, whose lexicographic order matches chronological order. -/
structure User where
  id : Str
  name : Str
  phone : Str
  passcode_hash : Str
  imei : Str
  is_vip : Bool
  created_at : Nat
  expired_at : Option Str
  last_login : Option Str
  current_device : Option Str
  is_banned : Bool
deriving DecidableEq, Repr

/-- The `is_vip` query-parameter enum of `filterUserSchema`. -/
inductive VipFilter
  | all
  | vip
  | nonVip
deriving DecidableEq, Repr

/-- The `is_banned` query-parameter enum of `filterUserSchema`. -/
inductive BanFilter
  | all
  | banned
  | active
deriving DecidableEq, Repr

/-- The `sortBy` enum of `filterUserSchema`. -/
inductive SortField
  | name
  | created_at
  | last_login
  | expired_at
deriving DecidableEq, Repr

/-- The `sortOrder` enum of `filterUserSchema`. -/
inductive SortOrder
  | asc
  | desc
deriving DecidableEq, Repr

/-- The output of `filterUserSchema.parse` (defaults already applied). -/
structure FilterUserParams where
  name : Option Str
  phone : Option Str
  is_vip : VipFilter
  is_banned : BanFilter
  sortBy : SortField
  sortOrder : SortOrder
  page : Nat
  limit : Nat
deriving DecidableEq, Repr

/-- JavaScript `n || d` on numbers: `0` is falsy and falls back to `d`.
Models `filters.page || 1` and `filters.limit || 10`. -/
def jsOrNat (n d : Nat) : Nat := if n = 0 then d else n

/-- JavaScript `count || 0`: a missing (`null`/`undefined`) count becomes 0. -/
def countOr : Option Nat → Nat
  | none => 0
  | some c => c

/-- Row predicate for the `ilike` name constraint: the constraint is added only
when `filters.name` is truthy (present and non-empty). -/
def nameCond (f : FilterUserParams) (u : User) : Bool :=
  match f.name with
  | none => true
  | some s => if s.isEmpty then true else containsCI s u.name

/-- Row predicate for the `ilike` phone constraint. -/
def phoneCond (f : FilterUserParams) (u : User) : Bool :=
  match f.phone with
  | none => true
  | some s => if s.isEmpty then true else containsCI s u.phone

/-- Row predicate for the VIP equality constraint. -/
def vipCond (f : FilterUserParams) (u : User) : Bool :=
  match f.is_vip with
  | .vip => u.is_vip == true
  | .nonVip => u.is_vip == false
  | .all => true

/-- Row predicate for the ban equality constraint. -/
def banCond (f : FilterUserParams) (u : User) : Bool :=
  match f.is_banned with
  | .banned => u.is_banned == true
  | .active => u.is_banned == false
  | .all => true

/-- Conjunction of the constraints `getUsers` adds to its query builder. -/
def matchesFilters (f : FilterUserParams) (u : User) : Bool :=
  nameCond f u && phoneCond f u && vipCond f u && banCond f u

/-- Ascending comparison on the requested sort column. -/
def fieldLe : SortField → User → User → Bool
  | .name, a, b => lexLe a.name b.name
  | .created_at, a, b => decide (a.created_at ≤ b.created_at)
  | .last_login, a, b => optStrLe a.last_login b.last_login
  | .expired_at, a, b => optStrLe a.expired_at b.expired_at

/-- The `order(sortBy, ascending)` comparison; descending order reverses it. -/
def userLe (field : SortField) (asc : Bool) (a b : User) : Bool :=
  if asc then fieldLe field a b else fieldLe field b a

/-- The row ordering requested by a filter object. -/
def userOrder (f : FilterUserParams) (a b : User) : Prop :=
  userLe f.sortBy (decide (f.sortOrder = SortOrder.asc)) a b = true

instance (f : FilterUserParams) : DecidableRel (userOrder f) :=
  fun a b =>
    inferInstanceAs
      (Decidable (userLe f.sortBy (decide (f.sortOrder = SortOrder.asc)) a b = true))

/-- The filtered, ordered row list the database evaluates before pagination. -/
def sortedMatches (table : List User) (f : FilterUserParams) : List User :=
  List.insertionSort (userOrder f) (table.filter (matchesFilters f))

/-- Shape of the `getUsers` response: `{ data, count }`. -/
structure GetUsersResult where
  data : List User
  count : Nat
deriving DecidableEq, Repr

/-- `SupabaseStorage.getUsers`: builds the filter constraints, applies
`page || 1` / `limit || 10`, orders by the sort column, requests the row range
`start .. start + limit - 1`, and returns the page plus `count || 0` where the
backend count is the exact number of matching rows. -/
def getUsers (table : List User) (f : FilterUserParams) : GetUsersResult :=
  let filtered := table.filter (matchesFilters f)
  let page := jsOrNat f.page 1
  let limit := jsOrNat f.limit 10
  let start := (page - 1) * limit
  { data := ((sortedMatches table f).drop start).take limit
    count := countOr (some filtered.length) }

/-- The same filter with a different page, as a pagination UI walks pages. -/
def setPage (f : FilterUserParams) (p : Nat) : FilterUserParams :=
  { f with page := p }

/-- Number of pages a pagination UI derives from a total count. -/
def totalPages (count limit : Nat) : Nat := (count + limit - 1) / limit

/-! ### Settings store -/

/-- The in-process `AppSettings` record. -/
structure AppSettings where
  allowRegistration : Bool
  maintenanceMode : Bool
  vipFeatures : List Str
  appVersion : Str
  notificationMessage : Str
deriving DecidableEq, Repr

/-- `DEFAULT_SETTINGS` from the storage module. -/
def DEFAULT_SETTINGS : AppSettings :=
  { allowRegistration := true
    maintenanceMode := false
    vipFeatures :=
      ["Priority Support".toList, "Extended Expiration".toList,
        "Premium Content".toList]
    appVersion := "1.0.0".toList
    notificationMessage := "".toList }

/-- A `Partial<AppSettings>` request body: absent keys are `none`. -/
structure PartialAppSettings where
  allowRegistration : Option Bool := none
  maintenanceMode : Option Bool := none
  vipFeatures : Option (List Str) := none
  appVersion : Option Str := none
  notificationMessage : Option Str := none
deriving DecidableEq, Repr

/-- `getSettings` returns the current in-process record. -/
def getSettings (s : AppSettings) : AppSettings := s

/-- `updateSettings`: the spread `{ ...this.settings, ...newSettings }` keeps
every field the partial object does not name and overwrites every field it
does name. -/
def updateSettings (s : AppSettings) (p : PartialAppSettings) : AppSettings :=
  { allowRegistration := p.allowRegistration.getD s.allowRegistration
    maintenanceMode := p.maintenanceMode.getD s.maintenanceMode
    vipFeatures := p.vipFeatures.getD s.vipFeatures
    appVersion := p.appVersion.getD s.appVersion
    notificationMessage := p.notificationMessage.getD s.notificationMessage }

/-! ### Aggregate statistics -/

/-- The `UserStats` response shape. -/
structure UserStats where
  totalUsers : Nat
  activeUsers : Nat
  bannedUsers : Nat
  vipUsers : Nat
  newUsers : Nat
deriving DecidableEq, Repr

/-- A `select(.*., count: exact, head: true)` counting query over the table:
the honest backend reports the exact number of rows matching the predicate. -/
def countExact (table : List User) (p : User → Bool) : Option Nat :=
  some (table.countP p)

/-- `getUserStats` assembles the five backend counts, each defaulting to 0
(`count || 0`) when the backend reports no count. -/
def getUserStats (c1 c2 c3 c4 c5 : Option Nat) : UserStats :=
  { totalUsers := countOr c1
    activeUsers := countOr c2
    bannedUsers := countOr c3
    vipUsers := countOr c4
    newUsers := countOr c5 }

/-- `getUserStats` over an honest backend: the five independent counting
queries it issues (total, non-banned, banned, VIP, created in the last 7
days). -/
def getUserStatsOf (now : Nat) (table : List User) : UserStats :=
  getUserStats
    (countExact table (fun _ => true))
    (countExact table (fun u => u.is_banned == false))
    (countExact table (fun u => u.is_banned == true))
    (countExact table (fun u => u.is_vip == true))
    (countExact table (fun u => decide (now - 7 * SECONDS_PER_DAY ≤ u.created_at)))

/-! ### Activity trend -/

/-- One point of the activity trend: `{ date, userCount }`; `date` is the day
index standing in for the ISO date string. -/
structure UserActivity where
  date : Nat
  userCount : Nat
deriving DecidableEq, Repr

/-- `Map.get`: value of the first (only) entry with the given key. -/
def mapGet : List (Nat × Nat) → Nat → Option Nat
  | [], _ => none
  | p :: rest, k => if p.1 = k then some p.2 else mapGet rest k

/-- `Map.set`: overwrite in place when the key exists, append otherwise. -/
def mapSet : List (Nat × Nat) → Nat → Nat → List (Nat × Nat)
  | [], k, v => [(k, v)]
  | p :: rest, k, v => if p.1 = k then (k, v) :: rest else p :: mapSet rest k v

/-- The keys of a map, in insertion order. -/
def keysOf (m : List (Nat × Nat)) : List Nat := m.map Prod.fst

/-- The initialization loop of `getUserActivityTrend`: for `i` in
`0 .. days-1`, set the date `i` days before now to count 0. -/
def initActivityMap (now days : Nat) : List (Nat × Nat) :=
  (List.range days).foldl
    (fun m i => mapSet m (dayOf (now - i * SECONDS_PER_DAY)) 0) []

/-- The counting loop: for each fetched `created_at`, bump its calendar day,
starting from `get(dateStr) || 0`. -/
def countActivity (m : List (Nat × Nat)) (rows : List Nat) : List (Nat × Nat) :=
  rows.foldl (fun m t => mapSet m (dayOf t) ((mapGet m (dayOf t)).getD 0 + 1)) m

/-- The `sort((a, b) => a.date.localeCompare(b.date))` comparison: ascending by
date string, i.e. by day index. -/
def activityLe (a b : UserActivity) : Prop := a.date ≤ b.date

instance : DecidableRel activityLe :=
  fun a b => inferInstanceAs (Decidable (a.date ≤ b.date))

instance : IsTotal UserActivity activityLe := ⟨fun a b => Nat.le_total a.date b.date⟩

instance : IsTrans UserActivity activityLe := ⟨fun _ _ _ h1 h2 => Nat.le_trans h1 h2⟩

/-- Strict date order on trend entries. -/
def activityLt (a b : UserActivity) : Prop := a.date < b.date

instance : IsAntisymm UserActivity activityLt :=
  ⟨fun _ _ h1 h2 => absurd h2 (Nat.lt_asymm h1)⟩

/-- Body of `getUserActivityTrend` on a non-null fetch result: initialize the
window, count rows per day, convert entries to objects and sort by date. -/
def trendOfData (now days : Nat) (data : List Nat) : List UserActivity :=
  let counted := countActivity (initActivityMap now days) data
  List.insertionSort activityLe (counted.map (fun p => ⟨p.1, p.2⟩))

/-- `getUserActivityTrend` on the raw backend response: a null `data`
short-circuits to `[]`. -/
def getUserActivityTrendResp (now days : Nat) (resp : Option (List Nat)) :
    List UserActivity :=
  match resp with
  | none => []
  | some data => trendOfData now days data

/-- `getUserActivityTrend` over an honest backend: the `gte(created_at,
daysAgo)` fetch returns every stored creation timestamp at or after
`now - days` days. -/
def getUserActivityTrend (now days : Nat) (table : List Nat) : List UserActivity :=
  getUserActivityTrendResp now days
    (some (table.filter (fun t => decide (now - days * SECONDS_PER_DAY ≤ t))))

/-! ### Update schema and user update -/

/-- A field of a JSON request body: absent key, explicit `null`, or a value. -/
inductive JsonField (α : Type)
  | absent
  | null
  | val (a : α)
deriving DecidableEq, Repr

/-- The raw body of `PUT /api/users/:id`, as far as `updateUserSchema` reads
it (each field carries its declared payload type). -/
structure UpdateBody where
  name : JsonField Str
  phone : JsonField Str
  imei : JsonField Str
  is_vip : JsonField Bool
  is_banned : JsonField Bool
  expired_at : JsonField Str
deriving DecidableEq, Repr

/-- The `expired_at` transform of `updateUserSchema`: empty string, `null`
and `undefined` become `null` (`none`); any other string becomes
`new Date(val)` (`some (parse s)`, where the inner `none` is an Invalid
Date).  `parse` abstracts the JavaScript date parser. -/
def zodExpiredAt (parse : Str → Option Nat) : JsonField Str → Option (Option Nat)
  | .absent => none
  | .null => none
  | .val s => if s.isEmpty then none else some (parse s)

/-- The output type of `updateUserSchema.parse`. -/
structure UpdateUser where
  name : Str
  phone : Option Str
  imei : Option Str
  is_vip : Option Bool
  is_banned : Option Bool
  expired_at : Option (Option Nat)
deriving DecidableEq, Repr

/-- A zod validation issue (the route maps any of these to HTTP 400). -/
inductive ZodIssue
  | required
  | invalidType
deriving DecidableEq, Repr

/-- `z.string().optional()`: accepts a string or an absent key, rejects
`null`. -/
def optStrField : JsonField Str → Except ZodIssue (Option Str)
  | .absent => .ok none
  | .null => .error .invalidType
  | .val s => .ok (some s)

/-- `z.boolean().optional()`: accepts a boolean or an absent key, rejects
`null`. -/
def optBoolField : JsonField Bool → Except ZodIssue (Option Bool)
  | .absent => .ok none
  | .null => .error .invalidType
  | .val b => .ok (some b)

/-- `updateUserSchema.parse`: `name` is declared `z.string()` with no
`.optional()`, every other field is optional, and `expired_at` runs the
transform above. -/
def parseUpdateBody (parse : Str → Option Nat) (b : UpdateBody) :
    Except ZodIssue UpdateUser := do
  let name ← match b.name with
    | .val s => Except.ok s
    | .absent => Except.error .required
    | .null => Except.error .invalidType
  let phone ← optStrField b.phone
  let imei ← optStrField b.imei
  let isVip ← optBoolField b.is_vip
  let isBanned ← optBoolField b.is_banned
  Except.ok
    { name := name, phone := phone, imei := imei, is_vip := isVip,
      is_banned := isBanned, expired_at := zodExpiredAt parse b.expired_at }

/-- Build a `JsonField` from an optional value (present or absent key). -/
def jfOfOpt {α : Type} : Option α → JsonField α
  | none => .absent
  | some a => .val a

/-- The `expired_at` slot of the object handed to the database `update` call:
absent key, `null`, a `Date` object (`none` inside = Invalid Date), or a raw
string. -/
inductive ExpiredAtValue
  | absent
  | nullVal
  | dateVal (d : Option Nat)
  | strVal (s : Str)
deriving DecidableEq, Repr

/-- Storage-layer failures surfaced as thrown errors (HTTP 500). -/
inductive StorageError
  | rangeError
  | noRow
deriving DecidableEq, Repr

/-- Canonical timestamp rendering: stands in for `Date.prototype.toISOString`
(an injective function of the timestamp). -/
def isoString (t : Nat) : Str := Nat.toDigits 10 t

/-- The normalization at the top of `SupabaseStorage.updateUser`: a `Date`
becomes its ISO string (throwing `RangeError` on an Invalid Date), an empty
string becomes `null`, everything else passes through. -/
def normalizeExpiredAt : ExpiredAtValue → Except StorageError ExpiredAtValue
  | .dateVal (some t) => .ok (.strVal (isoString t))
  | .dateVal none => .error .rangeError
  | .strVal s => if s.isEmpty then .ok .nullVal else .ok (.strVal s)
  | .nullVal => .ok .nullVal
  | .absent => .ok .absent

/-- Reading the schema output back as an update-object slot: the transform
yields `null` or a `Date`. -/
def expiredAtOfZod : Option (Option Nat) → ExpiredAtValue
  | none => .nullVal
  | some d => .dateVal d

/-- The `expired_at` column value `updateUser` sends for a given request-body
field: schema transform followed by the storage normalization. -/
def sentExpiredAt (parse : Str → Option Nat) (v : JsonField Str) :
    Except StorageError ExpiredAtValue :=
  normalizeExpiredAt (expiredAtOfZod (zodExpiredAt parse v))

/-- The partial update object handed to `.update(...)` (the ban/VIP helpers
build these directly, bypassing the schema). -/
structure UpdatePayload where
  name : Option Str := none
  phone : Option Str := none
  imei : Option Str := none
  is_vip : Option Bool := none
  is_banned : Option Bool := none
  expired_at : ExpiredAtValue := ExpiredAtValue.absent
deriving DecidableEq, Repr

/-- Database row-update semantics: set exactly the provided columns.  The
`dateVal` case is unreachable here because `updateUser` serialises `Date`
values before sending. -/
def applyUpdate (p : UpdatePayload) (u : User) : User :=
  { u with
    name := p.name.getD u.name
    phone := p.phone.getD u.phone
    imei := p.imei.getD u.imei
    is_vip := p.is_vip.getD u.is_vip
    is_banned := p.is_banned.getD u.is_banned
    expired_at :=
      match p.expired_at with
      | .absent => u.expired_at
      | .nullVal => none
      | .strVal s => some s
      | .dateVal _ => none }

/-- `SupabaseStorage.updateUser`: normalize `expired_at`, update the matching
row, then `.select().single()` — exactly one matching row yields the updated
user, otherwise the backend reports the no-row error. -/
def updateUser (table : List User) (id : Str) (p : UpdatePayload) :
    Except StorageError (List User × User) :=
  match normalizeExpiredAt p.expired_at with
  | .error e => .error e
  | .ok exp =>
    let p2 := { p with expired_at := exp }
    let newTable := table.map (fun u => if u.id == id then applyUpdate p2 u else u)
    match newTable.filter (fun u => u.id == id) with
    | [u] => .ok (newTable, u)
    | _ => .error .noRow

/-- `banUser`: sugar for an update setting only `is_banned := true`. -/
def banUser (table : List User) (id : Str) : Except StorageError (List User × User) :=
  updateUser table id { is_banned := some true }

/-- `unbanUser`: sugar for an update setting only `is_banned := false`. -/
def unbanUser (table : List User) (id : Str) : Except StorageError (List User × User) :=
  updateUser table id { is_banned := some false }

/-- `setVipStatus`: sugar for an update setting only `is_vip`. -/
def setVipStatus (table : List User) (id : Str) (isVip : Bool) :
    Except StorageError (List User × User) :=
  updateUser table id { is_vip := some isVip }

/-! ### Route handlers -/

/-- An HTTP response from the user routes. -/
inductive ApiResponse
  | okUser (u : User)
  | badRequest (message : Str)
  | notFound (message : Str)
  | serverError (message : Str)
deriving DecidableEq, Repr

/-- An untyped JSON value, for fields the handler type-checks itself. -/
inductive JsonValue
  | boolVal (b : Bool)
  | strVal (s : Str)
  | numVal (n : Nat)
  | nullVal
  | undef
deriving DecidableEq, Repr

/-- The `POST /api/users/:id/vip` handler: a non-boolean `isVip` is answered
with HTTP 400 before any storage call; a boolean one is forwarded to
`setVipStatus`.  The returned table is the table after the request. -/
def vipRoute (table : List User) (id : Str) (isVip : JsonValue) :
    ApiResponse × List User :=
  match isVip with
  | .boolVal b =>
    match setVipStatus table id b with
    | .ok (t2, u) => (.okUser u, t2)
    | .error _ => (.serverError ("Failed to update VIP status".toList), table)
  | _ => (.badRequest ("isVip must be a boolean".toList), table)

/-- The raw result of `.select("*").eq("id", id).single()` on the backend:
either a row or a PostgREST error with a code. -/
inductive SingleResult
  | row (u : User)
  | failure (code : Str) (message : Str)
deriving DecidableEq, Repr

/-- The PostgREST code reported when `.single()` finds no row. -/
def PGRST116 : Str := "PGRST116".toList

/-- `SupabaseStorage.getUser`: the no-row code becomes `none`, any other
backend error is rethrown, a row is returned as-is. -/
def getUser (resp : SingleResult) : Except Str (Option User) :=
  match resp with
  | .row u => .ok (some u)
  | .failure code msg =>
    if code == PGRST116 then .ok none
    else .error ("Failed to get user: ".toList ++ msg)

/-- The `GET /api/users/:id` handler: `null` becomes 404, a thrown error
becomes 500, a user becomes the 200 body. -/
def getUserRoute (resp : SingleResult) : ApiResponse :=
  match getUser resp with
  | .ok none => .notFound ("User not found".toList)
  | .ok (some u) => .okUser u
  | .error _ => .serverError ("Failed to fetch user".toList)

/-! ### Table selection and request parsing -/

/-- The kind of storage operation issuing a query. -/
inductive StorageOp
  | list
  | fetchOne
  | updateRow
deriving DecidableEq, Repr

/-- A query as issued to the backend: the `.from(...)` table plus the
operation kind. -/
structure IssuedQuery where
  table : Str
  op : StorageOp
deriving DecidableEq, Repr

/-- The query issued by `getUsers`: `.from("users2")`, hardcoded. -/
def getUsersQuery (_filters : FilterUserParams) : IssuedQuery :=
  { table := "users2".toList, op := .list }

/-- The query issued by `getUser`: `.from("users2")`, hardcoded. -/
def getUserQuery (_id : Str) : IssuedQuery :=
  { table := "users2".toList, op := .fetchOne }

/-- The query issued by `updateUser`: `.from("users2")`, hardcoded. -/
def updateUserQuery (_id : Str) (_p : UpdatePayload) : IssuedQuery :=
  { table := "users2".toList, op := .updateRow }

/-- `banUser` issues its query through `updateUser`. -/
def banUserQuery (id : Str) : IssuedQuery :=
  updateUserQuery id { is_banned := some true }

/-- `unbanUser` issues its query through `updateUser`. -/
def unbanUserQuery (id : Str) : IssuedQuery :=
  updateUserQuery id { is_banned := some false }

/-- `setVipStatus` issues its query through `updateUser`. -/
def setVipStatusQuery (id : Str) (b : Bool) : IssuedQuery :=
  updateUserQuery id { is_vip := some b }

/-- The query-string parameters of `GET /api/users` after the route's
`parseInt` on `page`/`limit`.  The `table` field models an arbitrary extra
query parameter: the handler forwards only the eight named ones. -/
structure RawUsersQuery where
  name : Option Str := none
  phone : Option Str := none
  is_vip : Option Str := none
  is_banned : Option Str := none
  sortBy : Option Str := none
  sortOrder : Option Str := none
  page : Option Nat := none
  limit : Option Nat := none
  table : Option Str := none
deriving DecidableEq, Repr

/-- The `is_vip` enum parser with default `all`. -/
def parseVipFilter : Option Str → Except ZodIssue VipFilter
  | none => .ok .all
  | some s =>
    if s = "all".toList then .ok .all
    else if s = "vip".toList then .ok .vip
    else if s = "non-vip".toList then .ok .nonVip
    else .error .invalidType

/-- The `is_banned` enum parser with default `all`. -/
def parseBanFilter : Option Str → Except ZodIssue BanFilter
  | none => .ok .all
  | some s =>
    if s = "all".toList then .ok .all
    else if s = "banned".toList then .ok .banned
    else if s = "active".toList then .ok .active
    else .error .invalidType

/-- The `sortBy` enum parser with default `created_at`. -/
def parseSortField : Option Str → Except ZodIssue SortField
  | none => .ok .created_at
  | some s =>
    if s = "name".toList then .ok .name
    else if s = "created_at".toList then .ok .created_at
    else if s = "last_login".toList then .ok .last_login
    else if s = "expired_at".toList then .ok .expired_at
    else .error .invalidType

/-- The `sortOrder` enum parser with default `desc`. -/
def parseSortOrder : Option Str → Except ZodIssue SortOrder
  | none => .ok .desc
  | some s =>
    if s = "asc".toList then .ok .asc
    else if s = "desc".toList then .ok .desc
    else .error .invalidType

/-- `filterUserSchema.parse` on the object the `GET /api/users` handler
builds: optional strings pass through, the enums are validated with their
defaults, `page`/`limit` default to 1 and 10, and no table-selection input
exists in the parsed object. -/
def filterUserSchemaParse (q : RawUsersQuery) : Except ZodIssue FilterUserParams :=
  match parseVipFilter q.is_vip with
  | .error e => .error e
  | .ok vipF =>
    match parseBanFilter q.is_banned with
    | .error e => .error e
    | .ok banF =>
      match parseSortField q.sortBy with
      | .error e => .error e
      | .ok sb =>
        match parseSortOrder q.sortOrder with
        | .error e => .error e
        | .ok so =>
          Except.ok
            { name := q.name, phone := q.phone, is_vip := vipF,
              is_banned := banF, sortBy := sb, sortOrder := so,
              page := q.page.getD 1, limit := q.limit.getD 10 }

/-- `parseInt` on a query-string value, modelled on digit strings: the digits
value when the string starts with digits, `none` (NaN) otherwise. -/
def jsParseInt (s : Str) : Option Nat :=
  let ds := s.takeWhile Char.isDigit
  if ds.isEmpty then none
  else some (ds.foldl (fun n c => n * 10 + (c.toNat - 48)) 0)

/-- The `days` value of the `GET /api/analytics/activity` handler:
`req.query.days ? parseInt(req.query.days) : 30` (an absent or empty — falsy —
parameter means 30; `none` models NaN from a junk value). -/
def activityRouteDays : Option Str → Option Nat
  | none => some 30
  | some s => if s.isEmpty then some 30 else jsParseInt s

/-- The activity handler: forwards the parsed `days` to
`getUserActivityTrend` (a NaN day count never reaches a well-formed call). -/
def activityRoute (daysParam : Option Str) (now : Nat) (table : List Nat) :
    Option (List UserActivity) :=
  (activityRouteDays daysParam).map (fun d => getUserActivityTrend now d table)

/-! ### Concrete sample data for witnesses -/

/-- A sample `users2` row. -/
def sampleUser : User :=
  { id := "u1".toList, name := "Alice".toList, phone := "123".toList,
    passcode_hash := "h".toList, imei := "i".toList, is_vip := false,
    created_at := 0, expired_at := none, last_login := none,
    current_device := none, is_banned := false }

/-- A second sample row. -/
def sampleUser2 : User :=
  { id := "u2".toList, name := "Bob".toList, phone := "456".toList,
    passcode_hash := "h2".toList, imei := "i2".toList, is_vip := true,
    created_at := 100, expired_at := none, last_login := none,
    current_device := none, is_banned := false }

/-- A third sample row. -/
def sampleUser3 : User :=
  { id := "u3".toList, name := "Carol".toList, phone := "789".toList,
    passcode_hash := "h3".toList, imei := "i3".toList, is_vip := false,
    created_at := 50, expired_at := none, last_login := none,
    current_device := none, is_banned := true }

/-- A three-row sample table. -/
def demoTable : List User := [sampleUser, sampleUser2, sampleUser3]

/-- A filter object asking for page 1 with page size 2. -/
def demoFilter : FilterUserParams :=
  { name := none, phone := none, is_vip := .all, is_banned := .all,
    sortBy := .created_at, sortOrder := .desc, page := 1, limit := 2 }

/-- The request with no query parameters at all. -/
def emptyRawQuery : RawUsersQuery := {}

/-- The filter object `filterUserSchema` produces for an empty query. -/
def defaultFilter : FilterUserParams :=
  { name := none, phone := none, is_vip := .all, is_banned := .all,
    sortBy := .created_at, sortOrder := .desc, page := 1, limit := 10 }

/-- A date parser for witness instantiations of the abstract JS date parser. -/
def parseFixed : Str → Option Nat := fun _ => some 5

/-- A date parser that accepts nothing (every string is Invalid Date). -/
def parseNothing : Str → Option Nat := fun _ => none

/-! ### Claims about settings, stats, routes and schemas -/

/-- Claim C3: `updateSettings` shallow-merges a partial object into the
current record — every named field takes its new value, every unnamed field
keeps its previous value (in particular updating only `maintenanceMode`
leaves `appVersion` unchanged) — and `getSettings` returns the current
value. -/
theorem C3_settings_merge (s : AppSettings) (p : PartialAppSettings) (b : Bool) :
    getSettings (updateSettings s p) = updateSettings s p
    ∧ (updateSettings s p).allowRegistration = p.allowRegistration.getD s.allowRegistration
    ∧ (updateSettings s p).maintenanceMode = p.maintenanceMode.getD s.maintenanceMode
    ∧ (updateSettings s p).vipFeatures = p.vipFeatures.getD s.vipFeatures
    ∧ (updateSettings s p).appVersion = p.appVersion.getD s.appVersion
    ∧ (updateSettings s p).notificationMessage = p.notificationMessage.getD s.notificationMessage
    ∧ (updateSettings s { maintenanceMode := some b }).maintenanceMode = b
    ∧ (updateSettings s { maintenanceMode := some b }).appVersion = s.appVersion :=
  ⟨rfl, rfl, rfl, rfl, rfl, rfl, rfl, rfl⟩

/-- Claim C8: `getUserStats` is assembled from the five independent counting
queries (total, non-banned, banned, VIP, created within the last 7 days), and
every missing backend count defaults to zero. -/
theorem C8_user_stats (now : Nat) (table : List User) (c1 c2 c3 c4 c5 : Option Nat) :
    getUserStatsOf now table =
      { totalUsers := table.length
        activeUsers := table.countP (fun u => u.is_banned == false)
        bannedUsers := table.countP (fun u => u.is_banned == true)
        vipUsers := table.countP (fun u => u.is_vip == true)
        newUsers := table.countP (fun u => decide (now - 7 * SECONDS_PER_DAY ≤ u.created_at)) }
    ∧ getUserStats none none none none none = ⟨0, 0, 0, 0, 0⟩
    ∧ getUserStats c1 c2 c3 c4 c5 =
      ⟨countOr c1, countOr c2, countOr c3, countOr c4, countOr c5⟩ := by
  refine ⟨?_, rfl, rfl⟩
  simp [getUserStatsOf, getUserStats, countExact, countOr, List.countP_true]

/-- Claim C10: when the `days` query parameter is absent, the activity
handler calls `getUserActivityTrend` with a 30-day window. -/
theorem C10_days_default (now : Nat) (table : List Nat) :
    activityRouteDays none = some 30
    ∧ activityRoute none now table = some (getUserActivityTrend now 30 table) :=
  ⟨rfl, rfl⟩

/-- Claim C7: `getUser` returns the not-found outcome `none` exactly when the
backend reports the no-row code PGRST116; the route maps that to 404, maps
every other backend error to 500, and never maps not-found to 500. -/
theorem C7_not_found (resp : SingleResult) :
    (getUser resp = .ok none ↔ ∃ msg, resp = .failure PGRST116 msg)
    ∧ (getUser resp = .ok none → getUserRoute resp = .notFound ("User not found".toList))
    ∧ (∀ code msg, resp = .failure code msg → code ≠ PGRST116 →
        getUserRoute resp = .serverError ("Failed to fetch user".toList))
    ∧ (∀ u, resp = .row u → getUserRoute resp = .okUser u)
    ∧ (∀ msg, resp = .failure PGRST116 msg →
        getUserRoute resp ≠ .serverError ("Failed to fetch user".toList)) := by
  refine ⟨?_, ?_, ?_, ?_, ?_⟩
  · constructor
    · intro h
      cases resp with
      | row u => simp [getUser] at h
      | failure code msg =>
        refine ⟨msg, ?_⟩
        by_cases hc : code == PGRST116
        · rw [show code = PGRST116 from by simpa using hc]
        · simp [getUser, hc] at h
    · rintro ⟨msg, rfl⟩
      simp [getUser]
  · intro h
    unfold getUserRoute
    rw [h]
  · rintro code msg rfl hc
    unfold getUserRoute getUser
    simp [hc]
  · rintro u rfl
    rfl
  · rintro msg rfl
    unfold getUserRoute getUser
    simp

/-- Witness for C7 at concrete backend responses. -/
theorem C7_not_found_witness :
    getUser (.failure PGRST116 ("0 rows".toList)) = .ok none
    ∧ getUserRoute (.failure PGRST116 ("0 rows".toList)) = .notFound ("User not found".toList)
    ∧ getUserRoute (.failure ("PGRST301".toList) ("jwt".toList)) = .serverError ("Failed to fetch user".toList)
    ∧ getUserRoute (.row sampleUser) = .okUser sampleUser :=
  ⟨(C7_not_found (.failure PGRST116 ("0 rows".toList))).1.mpr ⟨_, rfl⟩,
    (C7_not_found (.failure PGRST116 ("0 rows".toList))).2.1 rfl,
    (C7_not_found (.failure ("PGRST301".toList) ("jwt".toList))).2.2.1 _ _ rfl (by decide),
    (C7_not_found (.row sampleUser)).2.2.2.1 sampleUser rfl⟩

/-- Claim C6: a non-boolean `isVip` body is answered with HTTP 400 and the
message `isVip must be a boolean`, with no storage call, leaving the table
unchanged; a boolean `isVip` is forwarded to `setVipStatus` and the updated
user is returned. -/
theorem C6_vip_route (table : List User) (id : Str) (v : JsonValue) :
    ((∀ b, v ≠ .boolVal b) →
      vipRoute table id v = (.badRequest ("isVip must be a boolean".toList), table))
    ∧ (∀ b t2 u, v = .boolVal b → setVipStatus table id b = .ok (t2, u) →
        vipRoute table id v = (.okUser u, t2)) := by
  constructor
  · intro h
    cases v with
    | boolVal b => exact absurd rfl (h b)
    | strVal s => rfl
    | numVal n => rfl
    | nullVal => rfl
    | undef => rfl
  · rintro b t2 u rfl hs
    simp [vipRoute, hs]

/-- Witness for C6: a string body is rejected without touching the table, a
boolean body returns the updated row. -/
theorem C6_vip_route_witness :
    vipRoute [sampleUser] ("u1".toList) (.strVal ("yes".toList)) =
      (.badRequest ("isVip must be a boolean".toList), [sampleUser])
    ∧ vipRoute [sampleUser] ("u1".toList) (.boolVal true) =
      (.okUser { sampleUser with is_vip := true }, [{ sampleUser with is_vip := true }]) :=
  ⟨(C6_vip_route [sampleUser] ("u1".toList) (.strVal ("yes".toList))).1
      (by intro b h; cases h),
    (C6_vip_route [sampleUser] ("u1".toList) (.boolVal true)).2 true
      [{ sampleUser with is_vip := true }] { sampleUser with is_vip := true } rfl rfl⟩

/-- Counterexample to claim C5: the body that omits every updatable field is
rejected by `updateUserSchema` (`name` is declared `z.string()` without
`.optional()`), so the update endpoint does reject some partial bodies as
validation failures. -/
theorem C5_counterexample :
    parseUpdateBody parseNothing
      { name := .absent, phone := .absent, imei := .absent, is_vip := .absent,
        is_banned := .absent, expired_at := .absent } = .error .required := rfl

/-- Claim C5 amended: the update endpoint accepts any body that provides a
string `name` together with any subset of the remaining updatable fields
(each either present with its declared type or absent), and parses it to the
corresponding partial update; only omitting `name` is a validation failure. -/
theorem C5_partial_body (parse : Str → Option Nat) (s : Str) (p i : Option Str)
    (v bn : Option Bool) (e : JsonField Str) :
    parseUpdateBody parse
      { name := .val s, phone := jfOfOpt p, imei := jfOfOpt i,
        is_vip := jfOfOpt v, is_banned := jfOfOpt bn, expired_at := e } =
      .ok { name := s, phone := p, imei := i, is_vip := v, is_banned := bn,
            expired_at := zodExpiredAt parse e } := by
  cases p <;> cases i <;> cases v <;> cases bn <;> rfl

/-- Claim C4: an `expired_at` of empty string, `null`, or absent is
normalized to `null` before persisting, and a date-like string is normalized
to the canonical timestamp rendering; neither path raises an error. -/
theorem C4_expired_at_normalization (parse : Str → Option Nat) (v : JsonField Str) :
    (v = .absent ∨ v = .null ∨ v = .val [] →
      sentExpiredAt parse v = .ok .nullVal)
    ∧ (∀ s t, v = .val s → s ≠ [] → parse s = some t →
        sentExpiredAt parse v = .ok (.strVal (isoString t))) := by
  constructor
  · rintro (rfl | rfl | rfl) <;> rfl
  · rintro s t rfl hs hp
    unfold sentExpiredAt zodExpiredAt
    simp only [List.isEmpty_iff, if_neg hs, expiredAtOfZod, hp]
    rfl

/-- Witness for C4: the three null-like inputs and a date-like string. -/
theorem C4_expired_at_normalization_witness :
    sentExpiredAt parseFixed .absent = .ok .nullVal
    ∧ sentExpiredAt parseFixed .null = .ok .nullVal
    ∧ sentExpiredAt parseFixed (.val []) = .ok .nullVal
    ∧ sentExpiredAt parseFixed (.val ("2024-01-01".toList)) = .ok (.strVal (isoString 5)) :=
  ⟨(C4_expired_at_normalization parseFixed .absent).1 (Or.inl rfl),
    (C4_expired_at_normalization parseFixed .null).1 (Or.inr (Or.inl rfl)),
    (C4_expired_at_normalization parseFixed (.val [])).1 (Or.inr (Or.inr rfl)),
    (C4_expired_at_normalization parseFixed (.val ("2024-01-01".toList))).2
      ("2024-01-01".toList) 5 rfl (by decide) rfl⟩

/-- Claim C9: every user operation of the active storage layer addresses the
hardcoded table `users2` — the ban/unban/VIP helpers go through `updateUser`
— the parsed filter object carries no table-selection input (any `table`
query parameter is ignored), and `users2` is distinct from the legacy
`users` table. -/
theorem C9_users2_only (f : FilterUserParams) (id : Str) (p : UpdatePayload)
    (b : Bool) (q : RawUsersQuery) (t : Option Str) :
    (getUsersQuery f).table = "users2".toList
    ∧ (getUserQuery id).table = "users2".toList
    ∧ (updateUserQuery id p).table = "users2".toList
    ∧ banUserQuery id = updateUserQuery id { is_banned := some true }
    ∧ unbanUserQuery id = updateUserQuery id { is_banned := some false }
    ∧ setVipStatusQuery id b = updateUserQuery id { is_vip := some b }
    ∧ filterUserSchemaParse { q with table := t } = filterUserSchemaParse q
    ∧ "users2".toList ≠ "users".toList :=
  ⟨rfl, rfl, rfl, rfl, rfl, rfl, rfl, by decide⟩

/-! ### Pagination (claim C2) -/

/-- Splitting a list into `n` chunks of size `k` and flattening them
reproduces the list, provided `n` chunks suffice to cover it. -/
theorem flatten_chunks {α : Type} (k : Nat) :
    ∀ (n : Nat) (l : List α), l.length ≤ n * k →
      ((List.range n).map (fun i => (l.drop (i * k)).take k)).flatten = l := by
  intro n
  induction n with
  | zero =>
    intro l hl
    simp only [Nat.zero_mul, Nat.le_zero, List.length_eq_zero] at hl
    simp [hl]
  | succ n ih =>
    intro l hl
    rw [List.range_succ_eq_map, List.map_cons, List.map_map, List.flatten_cons]
    have hmap :
        (List.range n).map ((fun i => (l.drop (i * k)).take k) ∘ Nat.succ) =
          (List.range n).map (fun i => ((l.drop k).drop (i * k)).take k) := by
      apply List.map_congr_left
      intro i _
      simp only [Function.comp]
      rw [List.drop_drop]
      congr 2
      rw [Nat.succ_mul]
      omega
    have hlen : (l.drop k).length ≤ n * k := by
      rw [List.length_drop]
      have h2 : l.length ≤ n * k + k := by
        rw [Nat.succ_mul] at hl
        exact hl
      generalize n * k = m at h2 ⊢
      omega
    rw [hmap, ih (l.drop k) hlen]
    simp [List.take_append_drop]

/-- The page count derived from a total covers the total. -/
theorem le_totalPages_mul (c k : Nat) (hk : 1 ≤ k) : c ≤ totalPages c k * k := by
  unfold totalPages
  have h := Nat.div_add_mod (c + k - 1) k
  have hm : (c + k - 1) % k < k := Nat.mod_lt _ (by omega)
  rw [Nat.mul_comm]
  generalize hq : (c + k - 1) / k = q at h ⊢
  generalize hr : (c + k - 1) % k = r at h hm
  generalize hkq : k * q = m at h ⊢
  omega

/-- Claim C2: `getUsers` requests exactly the row range
`(page-1)*limit .. page*limit-1` of the ordered matches (with the `|| 1` and
`|| 10` fallbacks inactive for the schema-valid `page ≥ 1`, `limit ≥ 1`), so
the returned page never exceeds `limit` rows; the returned count is the exact
number of matching rows; walking all `ceil(count/limit)` pages concatenates
back to the full ordered match list, covering each matching row exactly once;
and the schema defaults are `page = 1`, `limit = 10`. -/
theorem C2_getUsers_pagination (table : List User) (f : FilterUserParams)
    (q : RawUsersQuery) (g : FilterUserParams)
    (hp : 1 ≤ f.page) (hl : 1 ≤ f.limit)
    (hparse : filterUserSchemaParse q = .ok g)
    (hqp : q.page = none) (hql : q.limit = none) :
    (getUsers table f).data =
      ((sortedMatches table f).drop ((f.page - 1) * f.limit)).take f.limit
    ∧ (getUsers table f).data.length ≤ f.limit
    ∧ (getUsers table f).count = (table.filter (matchesFilters f)).length
    ∧ ((List.range (totalPages (getUsers table f).count f.limit)).map
        (fun i => (getUsers table (setPage f (i + 1))).data)).flatten
        = sortedMatches table f
    ∧ ((List.range (totalPages (getUsers table f).count f.limit)).map
        (fun i => (getUsers table (setPage f (i + 1))).data)).flatten.Perm
        (table.filter (matchesFilters f))
    ∧ g.page = 1 ∧ g.limit = 10 := by
  have hp0 : f.page ≠ 0 := by omega
  have hl0 : f.limit ≠ 0 := by omega
  have hdata : (getUsers table f).data =
      ((sortedMatches table f).drop ((f.page - 1) * f.limit)).take f.limit := by
    simp [getUsers, jsOrNat, hp0, hl0]
  have hcount : (getUsers table f).count = (table.filter (matchesFilters f)).length := rfl
  have hpage : ∀ i : Nat, (getUsers table (setPage f (i + 1))).data =
      ((sortedMatches table f).drop (i * f.limit)).take f.limit := by
    intro i
    simp [getUsers, setPage, jsOrNat, hl0]
    rfl
  have hslen : (sortedMatches table f).length = (table.filter (matchesFilters f)).length :=
    (List.perm_insertionSort _ _).length_eq
  have hjoin : ((List.range (totalPages (getUsers table f).count f.limit)).map
      (fun i => (getUsers table (setPage f (i + 1))).data)).flatten
      = sortedMatches table f := by
    rw [hcount]
    rw [List.map_congr_left (fun i _ => hpage i)]
    apply flatten_chunks f.limit
    rw [hslen]
    exact le_totalPages_mul _ _ hl
  have hdefaults : g.page = 1 ∧ g.limit = 10 := by
    unfold filterUserSchemaParse at hparse
    rcases hv : parseVipFilter q.is_vip with e | vipF <;> rw [hv] at hparse
    · simp at hparse
    rcases hb : parseBanFilter q.is_banned with e | banF <;> rw [hb] at hparse
    · simp at hparse
    rcases hsb : parseSortField q.sortBy with e | sb <;> rw [hsb] at hparse
    · simp at hparse
    rcases hso : parseSortOrder q.sortOrder with e | so <;> rw [hso] at hparse
    · simp at hparse
    simp only [Except.ok.injEq] at hparse
    subst hparse
    simp [hqp, hql]
  refine ⟨hdata, ?_, hcount, hjoin, ?_, hdefaults⟩
  · rw [hdata]
    simp only [List.length_take]
    exact Nat.min_le_left _ _
  · rw [hjoin]
    exact List.perm_insertionSort _ _

/-- Witness for C2 on a three-row table with page size 2 and an empty request
query. -/
theorem C2_getUsers_pagination_witness :
    (getUsers demoTable demoFilter).data =
      ((sortedMatches demoTable demoFilter).drop
        ((demoFilter.page - 1) * demoFilter.limit)).take demoFilter.limit
    ∧ (getUsers demoTable demoFilter).data.length ≤ demoFilter.limit
    ∧ (getUsers demoTable demoFilter).count =
      (demoTable.filter (matchesFilters demoFilter)).length
    ∧ ((List.range (totalPages (getUsers demoTable demoFilter).count demoFilter.limit)).map
        (fun i => (getUsers demoTable (setPage demoFilter (i + 1))).data)).flatten
        = sortedMatches demoTable demoFilter
    ∧ ((List.range (totalPages (getUsers demoTable demoFilter).count demoFilter.limit)).map
        (fun i => (getUsers demoTable (setPage demoFilter (i + 1))).data)).flatten.Perm
        (demoTable.filter (matchesFilters demoFilter))
    ∧ defaultFilter.page = 1 ∧ defaultFilter.limit = 10 :=
  C2_getUsers_pagination demoTable demoFilter emptyRawQuery defaultFilter
    (by decide) (by decide) rfl rfl rfl

/-! ### Activity-trend map lemmas (claim C1) -/

theorem keysOf_cons (p : Nat × Nat) (m : List (Nat × Nat)) :
    keysOf (p :: m) = p.1 :: keysOf m := rfl

theorem mapGet_mapSet_self (m : List (Nat × Nat)) (k v : Nat) :
    mapGet (mapSet m k v) k = some v := by
  induction m with
  | nil => simp [mapSet, mapGet]
  | cons p rest ih =>
    by_cases h : p.1 = k
    · simp [mapSet, h, mapGet]
    · simp [mapSet, h, mapGet, ih]

theorem mapGet_mapSet_ne (m : List (Nat × Nat)) (k v j : Nat) (h : j ≠ k) :
    mapGet (mapSet m k v) j = mapGet m j := by
  induction m with
  | nil => simp [mapSet, mapGet, Ne.symm h]
  | cons p rest ih =>
    by_cases hp : p.1 = k
    · simp [mapSet, hp, mapGet, Ne.symm h]
    · simp [mapSet, hp, mapGet, ih]

theorem mem_keysOf_mapSet (m : List (Nat × Nat)) (k v : Nat) (h : k ∈ keysOf m) :
    keysOf (mapSet m k v) = keysOf m := by
  induction m with
  | nil => simp [keysOf] at h
  | cons p rest ih =>
    by_cases hp : p.1 = k
    · simp [mapSet, hp, keysOf]
    · have hk : k ∈ keysOf rest := by
        rw [keysOf_cons, List.mem_cons] at h
        rcases h with h | h
        · exact absurd h.symm hp
        · exact h
      simp only [mapSet, if_neg hp, keysOf_cons, ih hk]

theorem mapSet_of_not_mem (m : List (Nat × Nat)) (k v : Nat) (h : k ∉ keysOf m) :
    mapSet m k v = m ++ [(k, v)] := by
  induction m with
  | nil => rfl
  | cons p rest ih =>
    rw [keysOf_cons, List.mem_cons] at h
    push_neg at h
    have hp : p.1 ≠ k := fun hh => h.1 hh.symm
    simp [mapSet, hp, ih h.2]

theorem mapGet_keyed (K : List Nat) (g : Nat → Nat) (k : Nat) (hk : k ∈ K) :
    mapGet (K.map (fun j => (j, g j))) k = some (g k) := by
  induction K with
  | nil => simp at hk
  | cons a K ih =>
    rw [List.map_cons]
    by_cases ha : a = k
    · subst ha
      simp [mapGet]
    · rw [List.mem_cons] at hk
      rcases hk with hk | hk
      · exact absurd hk.symm ha
      · simp [mapGet, ha, ih hk]

theorem countActivity_nil (m : List (Nat × Nat)) : countActivity m [] = m := rfl

theorem countActivity_cons (m : List (Nat × Nat)) (t : Nat) (rows : List Nat) :
    countActivity m (t :: rows) =
      countActivity (mapSet m (dayOf t) ((mapGet m (dayOf t)).getD 0 + 1)) rows := rfl

theorem keysOf_countActivity (rows : List Nat) :
    ∀ m, (∀ t ∈ rows, dayOf t ∈ keysOf m) →
      keysOf (countActivity m rows) = keysOf m := by
  induction rows with
  | nil => intro m _; rfl
  | cons t rows ih =>
    intro m hm
    rw [countActivity_cons]
    have h1 : dayOf t ∈ keysOf m := hm t (List.mem_cons_self t rows)
    have h2 : keysOf (mapSet m (dayOf t) ((mapGet m (dayOf t)).getD 0 + 1)) = keysOf m :=
      mem_keysOf_mapSet _ _ _ h1
    rw [ih _ ?_, h2]
    rw [h2]
    intro t2 ht2
    exact hm t2 (List.mem_cons_of_mem _ ht2)

theorem mapGet_countActivity (rows : List Nat) :
    ∀ m k v, (∀ t ∈ rows, dayOf t ∈ keysOf m) → mapGet m k = some v →
      mapGet (countActivity m rows) k =
        some (v + rows.countP (fun t => dayOf t == k)) := by
  induction rows with
  | nil =>
    intro m k v _ hv
    simpa [countActivity_nil] using hv
  | cons t rows ih =>
    intro m k v hm hv
    rw [countActivity_cons]
    have hmem : dayOf t ∈ keysOf m := hm t (List.mem_cons_self t rows)
    have hm2 : ∀ t2 ∈ rows,
        dayOf t2 ∈ keysOf (mapSet m (dayOf t) ((mapGet m (dayOf t)).getD 0 + 1)) := by
      rw [mem_keysOf_mapSet _ _ _ hmem]
      intro t2 ht2
      exact hm t2 (List.mem_cons_of_mem _ ht2)
    by_cases hk : dayOf t = k
    · subst hk
      rw [ih _ _ _ hm2 (mapGet_mapSet_self _ _ _)]
      rw [hv]
      simp [List.countP_cons]
      omega
    · have h2 : mapGet (mapSet m (dayOf t) ((mapGet m (dayOf t)).getD 0 + 1)) k = mapGet m k :=
        mapGet_mapSet_ne _ _ _ _ (fun hh => hk hh.symm)
      rw [ih _ _ _ hm2 (h2.trans hv)]
      congr 1
      rw [List.countP_cons]
      simp [hk]

theorem assoc_reconstruct :
    ∀ m : List (Nat × Nat), (keysOf m).Nodup →
      m = (keysOf m).map (fun k => (k, (mapGet m k).getD 0)) := by
  intro m
  induction m with
  | nil => intro _; rfl
  | cons p rest ih =>
    intro hnd
    rw [keysOf_cons, List.nodup_cons] at hnd
    rw [keysOf_cons, List.map_cons]
    congr 1
    · simp [mapGet]
    · rw [List.map_congr_left ?_, ← ih hnd.2]
      intro k hk
      have hpk : p.1 ≠ k := fun h => hnd.1 (h ▸ hk)
      simp [mapGet, hpk]

theorem initActivityMap_eq (now : Nat) :
    ∀ days : Nat, days * SECONDS_PER_DAY ≤ now →
      initActivityMap now days = (List.range days).map (fun i => (dayOf now - i, 0)) := by
  intro days
  induction days with
  | zero => intro _; rfl
  | succ n ih =>
    intro h
    have hn : n * SECONDS_PER_DAY ≤ now :=
      le_trans (Nat.mul_le_mul_right _ (Nat.le_succ n)) h
    have hstep : initActivityMap now (n + 1) =
        mapSet (initActivityMap now n) (dayOf (now - n * SECONDS_PER_DAY)) 0 := by
      unfold initActivityMap
      rw [List.range_succ, List.foldl_append]
      rfl
    have hday : dayOf (now - n * SECONDS_PER_DAY) = dayOf now - n := by
      unfold dayOf
      rw [Nat.mul_comm n SECONDS_PER_DAY]
      exact Nat.sub_mul_div now SECONDS_PER_DAY n (by rw [Nat.mul_comm]; exact hn)
    have hd : n + 1 ≤ dayOf now := by
      unfold dayOf
      rw [Nat.le_div_iff_mul_le (by norm_num [SECONDS_PER_DAY])]
      exact h
    have hfresh : dayOf now - n ∉ keysOf ((List.range n).map (fun i => (dayOf now - i, 0))) := by
      intro hmem
      unfold keysOf at hmem
      rw [List.map_map] at hmem
      simp only [List.mem_map, List.mem_range, Function.comp] at hmem
      obtain ⟨i, hi, hkey⟩ := hmem
      omega
    rw [hstep, ih hn, hday, mapSet_of_not_mem _ _ _ hfresh]
    rw [List.range_succ, List.map_append]
    rfl

theorem insertionSort_of_strictDesc (L : List UserActivity)
    (hdesc : L.Pairwise (fun a b => b.date < a.date)) :
    List.insertionSort activityLe L = L.reverse := by
  have hperm : (List.insertionSort activityLe L).Perm L.reverse :=
    (List.perm_insertionSort _ _).trans (List.reverse_perm L).symm
  have hs1 : List.Pairwise activityLe (List.insertionSort activityLe L) :=
    List.sorted_insertionSort activityLe L
  have hLne : L.Pairwise (fun a b => a.date ≠ b.date) :=
    hdesc.imp (fun h => (Nat.ne_of_lt h).symm)
  have hne : (List.insertionSort activityLe L).Pairwise (fun a b => a.date ≠ b.date) :=
    ((List.perm_insertionSort activityLe L).pairwise_iff (fun h => h.symm)).mpr hLne
  have hs2 : (List.insertionSort activityLe L).Pairwise activityLt :=
    (hs1.and hne).imp (fun h => lt_of_le_of_ne h.1 h.2)
  have hs3 : L.reverse.Pairwise activityLt := by
    rw [List.pairwise_reverse]
    exact hdesc.imp (fun h => h)
  exact List.eq_of_perm_of_sorted hperm hs2 hs3

theorem reverse_map_range {α : Type} (f : Nat → α) :
    ∀ n : Nat, ((List.range n).map f).reverse = (List.range n).map (fun i => f (n - 1 - i)) := by
  intro n
  induction n with
  | zero => rfl
  | succ n ih =>
    conv_lhs => rw [List.range_succ]
    rw [List.map_append, List.reverse_append]
    simp only [List.map_cons, List.map_nil, List.reverse_cons, List.reverse_nil,
      List.nil_append]
    rw [ih]
    conv_rhs => rw [List.range_succ_eq_map]
    simp [List.map_cons, List.map_map, Function.comp, Nat.sub_sub, Nat.add_comm]

/-- Functional characterization of the trend aggregation: when every fetched
creation timestamp falls on a calendar day inside the trailing window, the
result is one entry per window day, in ascending day order with no gaps, each
carrying the number of fetched rows of that day. -/
theorem trendOfData_eq (now days : Nat) (data : List Nat)
    (hnow : days * SECONDS_PER_DAY ≤ now)
    (hdataWin : ∀ t ∈ data, dayOf now - days < dayOf t ∧ dayOf t ≤ dayOf now) :
    trendOfData now days data =
      (List.range days).map (fun i =>
        { date := dayOf now - (days - 1) + i
          userCount := data.countP
            (fun t => dayOf t == dayOf now - (days - 1) + i) }) := by
  have hSpos : 0 < SECONDS_PER_DAY := by norm_num [SECONDS_PER_DAY]
  have hd : days ≤ dayOf now := by
    unfold dayOf
    rw [Nat.le_div_iff_mul_le hSpos]
    exact hnow
  have hinit := initActivityMap_eq now days hnow
  have hkeys : keysOf (initActivityMap now days) =
      (List.range days).map (fun i => dayOf now - i) := by
    rw [hinit]
    unfold keysOf
    rw [List.map_map]
    rfl
  have hnodup : (keysOf (initActivityMap now days)).Nodup := by
    rw [hkeys]
    refine List.Nodup.map_on ?_ (List.nodup_range days)
    intro x hx y hy hxy
    rw [List.mem_range] at hx hy
    omega
  have hdataMem : ∀ t ∈ data, dayOf t ∈ keysOf (initActivityMap now days) := by
    intro t ht
    have hw := hdataWin t ht
    rw [hkeys, List.mem_map]
    refine ⟨dayOf now - dayOf t, ?_, ?_⟩
    · rw [List.mem_range]; omega
    · omega
  have hget0 : ∀ i, i < days →
      mapGet (initActivityMap now days) (dayOf now - i) = some 0 := by
    intro i hi
    rw [hinit]
    rw [show (List.range days).map (fun i => (dayOf now - i, 0)) =
        ((List.range days).map (fun i => dayOf now - i)).map (fun j => (j, 0)) by
      rw [List.map_map]; rfl]
    exact mapGet_keyed _ (fun _ => 0) _
      (by rw [List.mem_map]; exact ⟨i, List.mem_range.mpr hi, rfl⟩)
  have hckeys : keysOf (countActivity (initActivityMap now days) data) =
      keysOf (initActivityMap now days) :=
    keysOf_countActivity _ _ hdataMem
  have hcnodup : (keysOf (countActivity (initActivityMap now days) data)).Nodup := by
    rw [hckeys]
    exact hnodup
  have hcget : ∀ i, i < days →
      mapGet (countActivity (initActivityMap now days) data) (dayOf now - i) =
        some (data.countP (fun t => dayOf t == dayOf now - i)) := by
    intro i hi
    have h := mapGet_countActivity data _ (dayOf now - i) 0 hdataMem (hget0 i hi)
    simpa using h
  have hshape : countActivity (initActivityMap now days) data =
      (List.range days).map (fun i =>
        (dayOf now - i, data.countP (fun t => dayOf t == dayOf now - i))) := by
    have hrec := assoc_reconstruct _ hcnodup
    rw [hckeys, hkeys] at hrec
    rw [hrec, List.map_map]
    apply List.map_congr_left
    intro i hi
    rw [List.mem_range] at hi
    simp only [Function.comp]
    rw [hcget i hi]
    rfl
  have hdesc : (((List.range days).map (fun i =>
      (dayOf now - i, data.countP (fun t => dayOf t == dayOf now - i)))).map
      (fun p => (⟨p.1, p.2⟩ : UserActivity))).Pairwise (fun a b => b.date < a.date) := by
    rw [List.pairwise_map, List.pairwise_map, List.pairwise_iff_getElem]
    intro i j hi hj hij
    rw [List.length_range] at hi hj
    simp only [List.getElem_range]
    show dayOf now - j < dayOf now - i
    omega
  show List.insertionSort activityLe
      ((countActivity (initActivityMap now days) data).map (fun p => ⟨p.1, p.2⟩)) = _
  rw [hshape, insertionSort_of_strictDesc _ hdesc, List.map_map, reverse_map_range]
  apply List.map_congr_left
  intro i hi
  rw [List.mem_range] at hi
  simp only [Function.comp]
  rw [show dayOf now - (days - 1 - i) = dayOf now - (days - 1) + i by omega]

/-- Counterexample to claim C1: with a 1-day window and one signup whose
timestamp lies on the day before the window but after the cutoff instant
(later in that day than the current time of day), the fetched row falls
outside the initialized date set, is added as a fresh key, and the trend has
2 entries instead of 1. -/
theorem C1_counterexample :
    (getUserActivityTrend 8640050 1 [8563660]).length = 2
    ∧ (getUserActivityTrend 8640050 1 [8563660]).map UserActivity.date = [99, 100]
    ∧ ¬ (getUserActivityTrend 8640050 1 [8563660]).length = 1 := by
  decide

/-- Claim C1 amended: for every window `days ≥ 1`, provided every fetched
creation timestamp falls on a calendar day within the trailing `days`-day
window (rows later in the boundary day than the cutoff instant, or
future-dated rows, would instead add extra entries), the trend has exactly
`days` entries, one per window day, with strictly ascending gap-free dates
and the per-day count of creations (zero for days with none). -/
theorem C1_activity_trend (now days : Nat) (table : List Nat)
    (_hdays : 1 ≤ days)
    (hnow : days * SECONDS_PER_DAY ≤ now)
    (hrows : ∀ t ∈ table, now - days * SECONDS_PER_DAY ≤ t →
      dayOf now - days < dayOf t ∧ dayOf t ≤ dayOf now) :
    getUserActivityTrend now days table =
      (List.range days).map (fun i =>
        { date := dayOf now - (days - 1) + i
          userCount := (table.filter
              (fun t => decide (now - days * SECONDS_PER_DAY ≤ t))).countP
            (fun t => dayOf t == dayOf now - (days - 1) + i) }) := by
  have h := trendOfData_eq now days
    (table.filter (fun t => decide (now - days * SECONDS_PER_DAY ≤ t))) hnow ?_
  · exact h
  · intro t ht
    rw [List.mem_filter] at ht
    exact hrows t ht.1 (by simpa using ht.2)

/-- Witness for C1 at the spec's example: a 7-day window with one signup
exactly 3 days ago yields 7 zero-filled ascending entries except the
4th-from-start, which is 1. -/
theorem C1_activity_trend_witness :
    getUserActivityTrend 864000000 7 [863740800] =
      (List.range 7).map (fun i =>
        { date := dayOf 864000000 - (7 - 1) + i
          userCount := (List.filter
              (fun t => decide (864000000 - 7 * SECONDS_PER_DAY ≤ t)) [863740800]).countP
            (fun t => dayOf t == dayOf 864000000 - (7 - 1) + i) })
    ∧ (getUserActivityTrend 864000000 7 [863740800]).map UserActivity.userCount =
      [0, 0, 0, 1, 0, 0, 0]
    ∧ (getUserActivityTrend 864000000 7 [863740800]).map UserActivity.date =
      [9994, 9995, 9996, 9997, 9998, 9999, 10000] :=
  ⟨C1_activity_trend 864000000 7 [863740800] (by decide) (by decide) (by decide),
    by decide, by decide⟩

end JxAdmin
